import Mathlib

/-!
Shallow embedding of the `bobr` command multiplexer (cchexcode/bobr).

The embedding follows the source files:
- `src/multiplexer.rs`: task data model, worker event emission, the single
  event consumer (`TaskEventHandler`), result assembly, and the cancellation
  race in `Multiplexer::run`.
- `src/args.rs`: the resolved `Command::Multiplex` argument record (including
  the parsed-but-unused `parallelism` field) and command-list resolution
  (inline commands followed by file-sourced commands).
- `src/config.rs`: the command-file schema.
- `src/main.rs`: process exit behavior (the command returns `Ok(())`, mapped
  by the runtime to process exit code 0; an `Err` exits non-zero).

Concurrency is modelled by explicit interleaving: each worker produces a
fixed per-task event sequence (the channel is FIFO per producer), and a
schedule decides how the per-worker queues merge into the single consumed
stream seen by the reporter.
-/

namespace Bobr

/-- `TaskStatusCompleted` from multiplexer.rs: terminal outcome of a task;
`Failed none` is a process terminated by a signal (no exit code). -/
inductive TaskStatusCompleted
  | Success
  | Failed (code : Option Int)
deriving DecidableEq, Repr

/-- `TaskStatus` from multiplexer.rs. -/
inductive TaskStatus
  | Pending
  | Running
  | Completed (outcome : TaskStatusCompleted)
deriving DecidableEq, Repr

/-- `TaskEvent` from multiplexer.rs: messages a worker sends to the reporter. -/
inductive TaskEvent
  | Update (id : Nat) (status : TaskStatus)
  | Stderr (id : Nat) (line : String)
  | Stdout (id : Nat) (content : String)
deriving DecidableEq, Repr

/-- The task id an event refers to (the `id` field of every variant). -/
def TaskEvent.taskId : TaskEvent → Nat
  | TaskEvent.Update id _ => id
  | TaskEvent.Stderr id _ => id
  | TaskEvent.Stdout id _ => id

/-- `Task` from multiplexer.rs. `stderr` is the `VecDeque` of recent lines,
head = oldest. -/
structure Task where
  command : String
  status : TaskStatus
  stderr : List String
  stdout : String
deriving DecidableEq, Repr

/-- The `BTreeMap<usize, RwLock<Task>>` registry, kept in ascending key order
as produced by `Multiplexer::new`. -/
abbrev Registry := List (Nat × Task)

/-- `BTreeMap::get`: lookup of a task by id. -/
def Registry.get (reg : Registry) (id : Nat) : Option Task :=
  (reg.find? fun p => p.1 == id).map fun p => p.2

/-- In-place mutation of the task stored under `id` (the reporter writing
through the `RwLock` at that key). Keys are untouched. -/
def Registry.modify (reg : Registry) (id : Nat) (f : Task → Task) : Registry :=
  reg.map fun p => if p.1 == id then (p.1, f p.2) else p

/-- `StdoutFormat` from args.rs. Only the `Json` variant is compiled in the
default feature set and matched in `Multiplexer::run`. -/
inductive StdoutFormat
  | Json
deriving DecidableEq, Repr

/-- `Multiplexer` from multiplexer.rs. Note: the struct has no parallelism
field; `Multiplexer::new(program, stderr, stdout, tasks)` takes exactly these
four arguments. -/
structure Multiplexer where
  program : List String
  stderr : Nat
  stdout : Option StdoutFormat
  tasks : Registry
deriving Repr

/-- `Multiplexer::new` (multiplexer.rs lines 81-101): task `i` gets id `i`
and the `i`-th command, status `Pending`, empty stderr ring and stdout. -/
def Multiplexer.new (program : List String) (stderr : Nat) (stdout : Option StdoutFormat)
    (tasks : List String) : Multiplexer :=
  { program := program
    stderr := stderr
    stdout := stdout
    tasks := (List.range tasks.length).map fun i =>
      (i, { command := tasks.getD i "", status := TaskStatus.Pending,
            stderr := [], stdout := "" }) }

/-- `Config` from config.rs, with each `Command` record projected to its
`command` string. -/
structure Config where
  commands : List String
deriving DecidableEq, Repr

/-- Command resolution in `ClapArgumentLoader::load` (args.rs lines 192-227):
start from the inline `-c` commands and append the command list of each file in
file order (`commands.append(&mut cmds)`). -/
def resolveCommands (inline : List String) (files : List Config) : List String :=
  files.foldl (fun acc f => acc ++ f.commands) inline

/-- The resolved `Command::Multiplex` record from args.rs (lines 84-90),
including the `parallelism` field parsed at lines 250-253. -/
structure MultiplexArgs where
  program : List String
  stdout : Option StdoutFormat
  stderr : Nat
  commands : List String
  parallelism : Option Nat
deriving Repr

/-- Construction of the engine from the resolved arguments. `Multiplexer::new`
has no parallelism parameter, so `MultiplexArgs.parallelism` cannot reach the
engine: only program, stderr, stdout and commands are passed. -/
def runMultiplexSetup (args : MultiplexArgs) : Multiplexer :=
  Multiplexer.new args.program args.stderr args.stdout args.commands

/-- A child process exit status (`std::process::ExitStatus` on Unix):
`some c` = exited with code `c`, `none` = terminated by a signal.
`success()` holds exactly for code 0; `code()` is the value itself. -/
abbrev ExitStatus := Option Int

/-- `ExitStatus::success`. -/
def ExitStatus.success (es : ExitStatus) : Bool :=
  es == some 0

/-- Exit classification in the worker (multiplexer.rs lines 160-165):
`if exit_code.success() then Success else Failed(exit_code.code())`. -/
def classifyExit (es : ExitStatus) : TaskStatusCompleted :=
  if ExitStatus.success es then TaskStatusCompleted.Success
  else TaskStatusCompleted.Failed es

/-- Result of `child_proc.wait()`: either an exit status or an error
(which the worker `unwrap`s, i.e. panics on). -/
inductive WaitResult
  | ok (es : ExitStatus)
  | failed
deriving DecidableEq, Repr

/-- Observable behavior of a successfully spawned child process:
the stderr lines read line-by-line (the loop ends when `next_line` returns
`Ok(None)` or an error), the result of `read_to_string` on stdout
(`none` = read error, which the worker `unwrap`s), and the wait result. -/
structure SpawnedProc where
  stderrLines : List String
  stdoutRead : Option String
  wait : WaitResult
deriving DecidableEq, Repr

/-- Result of `cmd_proc.spawn()`: a child process or an error
(which the worker `unwrap`s, i.e. panics on). -/
inductive SpawnResult
  | ok (p : SpawnedProc)
  | failed
deriving DecidableEq, Repr

/-- The worker body spawned into the `JoinSet` (multiplexer.rs lines 134-171):
the list of events it sends, and whether it panicked on an `unwrap`.
Spawn failure panics before any event; a stdout read error panics after the
`Running` and `Stderr` events; a wait failure panics after the `Stdout` event.
Only a fully successful worker emits the terminal `Update(Completed(..))`. -/
def workerRun (id : Nat) : SpawnResult → List TaskEvent × Bool
  | SpawnResult.failed => ([], true)
  | SpawnResult.ok p =>
    let pre := TaskEvent.Update id TaskStatus.Running ::
      (p.stderrLines.map fun l => TaskEvent.Stderr id l)
    match p.stdoutRead with
    | none => (pre, true)
    | some content =>
      let pre2 := pre ++ [TaskEvent.Stdout id content]
      match p.wait with
      | WaitResult.failed => (pre2, true)
      | WaitResult.ok es =>
        (pre2 ++ [TaskEvent.Update id (TaskStatus.Completed (classifyExit es))], false)

/-- The per-worker event queues of a run: `Multiplexer::run` iterates the
registry (ids `0..N` in order) and spawns one worker per task; `beh i` is the
process behavior observed by worker `i`. -/
def workerQueues (N : Nat) (beh : Nat → SpawnResult) : List (List TaskEvent) :=
  (List.range N).map fun i => (workerRun i (beh i)).1

/-- One step of the channel merge: schedule entry `i` delivers the next
pending event of producer `i` (a no-op if that queue is empty or absent).
The flume channel is FIFO per producer, so each queue is consumed in order. -/
def mplexStep {α : Type} (s : List (List α) × List α) (i : Nat) :
    List (List α) × List α :=
  match s.1.getD i [] with
  | [] => s
  | e :: rest => (s.1.set i rest, s.2 ++ [e])

/-- The consumed event stream under a schedule: the order-preserving merge of
the per-producer queues chosen by `σ`. -/
def mplex {α : Type} (qs : List (List α)) (σ : List Nat) : List α :=
  (σ.foldl mplexStep (qs, [])).2

/-- State of `TaskEventHandler::run` (multiplexer.rs lines 226-257):
the remaining-count (initialized to the task count) and the registry. -/
structure HandlerState where
  remaining : Nat
  tasks : Registry
deriving Repr

/-- The `Stderr` branch body (multiplexer.rs lines 238-244): push the line at
the back, then pop the front if the length exceeds the configured cap. -/
def pushLine (cap : Nat) (buf : List String) (line : String) : List String :=
  let b := buf ++ [line]
  if b.length > cap then b.tail else b

/-- One iteration of the reporter loop (multiplexer.rs lines 229-257).
`self.tasks.get(&id).unwrap()` panics when the id is not a registry key;
that case is `none`. -/
def handleEvent (cap : Nat) (st : HandlerState) : TaskEvent → Option HandlerState
  | TaskEvent.Update id status =>
    match Registry.get st.tasks id with
    | none => none
    | some _ =>
      let remaining := match status with
        | TaskStatus.Completed _ => st.remaining - 1
        | _ => st.remaining
      some { remaining := remaining
             tasks := Registry.modify st.tasks id fun t => { t with status := status } }
  | TaskEvent.Stderr id line =>
    match Registry.get st.tasks id with
    | none => none
    | some _ =>
      some { st with tasks := Registry.modify st.tasks id fun t =>
               { t with stderr := pushLine cap t.stderr line } }
  | TaskEvent.Stdout id content =>
    match Registry.get st.tasks id with
    | none => none
    | some _ =>
      some { st with tasks := Registry.modify st.tasks id fun t =>
               { t with stdout := content } }

/-- The reporter consuming a stream of events in order. -/
def handleEvents (cap : Nat) (st : HandlerState) (evs : List TaskEvent) :
    Option HandlerState :=
  evs.foldlM (handleEvent cap) st

/-- Number of registry entries currently in `Running` status. -/
def countRunning (reg : Registry) : Nat :=
  (reg.filter fun p => p.2.status == TaskStatus.Running).length

/-- Which arm of the `tokio::select!` race resolves first
(multiplexer.rs lines 183-189). -/
inductive RaceWinner
  | signal
  | commands
  | reporter
deriving DecidableEq, Repr

/-- The result-assembly loop (multiplexer.rs lines 201-206): one entry per
registry entry, keyed by id, holding the final stdout of that task. -/
def assembleResult (reg : Registry) : List (Nat × String) :=
  reg.map fun p => (p.1, p.2.stdout)

/-- The tail of `Multiplexer::run` (multiplexer.rs lines 182-215):
`aborted` is set exactly when the signal arm wins; the serialized result is
produced only when `!aborted && self.stdout.is_some()`; the function then
returns `Ok(())` on every path. `finalTasks` is the registry as last written
by the reporter when the race resolves. -/
def Multiplexer.runModel (m : Multiplexer) (winner : RaceWinner) (finalTasks : Registry) :
    Option (List (Nat × String)) × Except String Unit :=
  (if !(winner == RaceWinner.signal) && m.stdout.isSome
     then some (assembleResult finalTasks)
     else none,
   Except.ok ())

/-- Process exit code from the value `main` returns (main.rs): `Ok(())` exits
with code 0, an `Err` exits non-zero with a diagnostic. -/
def mainExitCode : Except String Unit → Nat
  | Except.ok _ => 0
  | Except.error _ => 1

/-- The subsequence of a consumed event stream that belongs to task `t`. -/
def filterId (t : Nat) (evs : List TaskEvent) : List TaskEvent :=
  evs.filter fun e => e.taskId == t

/-! ### List helpers -/

theorem getD_set_self {α : Type} :
    ∀ (l : List α) (i : Nat) (a d : α), i < l.length → (l.set i a).getD i d = a
  | [], i, _, _, h => absurd h (Nat.not_lt_zero i)
  | _ :: _, 0, _, _, _ => rfl
  | _ :: xs, i + 1, a, d, h => getD_set_self xs i a d (Nat.lt_of_succ_lt_succ h)

theorem getD_set_ne {α : Type} :
    ∀ (l : List α) (i j : Nat) (a d : α), i ≠ j → (l.set i a).getD j d = l.getD j d
  | [], _, _, _, _, _ => rfl
  | _ :: _, 0, 0, _, _, h => absurd rfl h
  | _ :: _, 0, _ + 1, _, _, _ => rfl
  | _ :: _, _ + 1, 0, _, _, _ => rfl
  | _ :: xs, i + 1, j + 1, a, d, h =>
      getD_set_ne xs i j a d fun hh => h (by rw [hh])

theorem lt_length_of_getD_cons {α : Type} {l : List (List α)} {i : Nat} {e : α}
    {rest : List α} (h : l.getD i [] = e :: rest) : i < l.length := by
  by_contra hge
  rw [List.getD_eq_default l [] (Nat.le_of_not_lt hge)] at h
  exact List.noConfusion h

theorem getD_map_range {β : Type} (d : β) (f : Nat → β) (N j : Nat) :
    ((List.range N).map f).getD j d = if j < N then f j else d := by
  have hbase : ((List.range N).map f).getD j d = (((List.range N).map f).get? j).getD d := rfl
  rcases Nat.lt_or_ge j N with h | h
  · rw [if_pos h, hbase, List.get?_map, List.get?_range h]
    rfl
  · rw [if_neg (Nat.not_lt.mpr h), hbase, List.get?_eq_none.mpr]
    · rfl
    · rw [List.length_map, List.length_range]
      exact h

/-! ### Registry lemmas -/

theorem Registry.get_nil (j : Nat) : Registry.get [] j = none := rfl

theorem Registry.get_cons (p : Nat × Task) (rest : Registry) (j : Nat) :
    Registry.get (p :: rest) j = if p.1 == j then some p.2 else Registry.get rest j := by
  cases h : p.1 == j with
  | true =>
    rw [if_pos rfl]
    unfold Registry.get
    rw [@List.find?_cons_of_pos _ (fun q => q.1 == j) p rest h]
    rfl
  | false =>
    rw [if_neg (by simp)]
    unfold Registry.get
    rw [@List.find?_cons_of_neg _ (fun q => q.1 == j) p rest (by simp [h])]

theorem Registry.modify_cons (p : Nat × Task) (rest : Registry) (id : Nat) (f : Task → Task) :
    Registry.modify (p :: rest) id f
      = (if p.1 == id then (p.1, f p.2) else p) :: Registry.modify rest id f := rfl

theorem Registry.get_append (l1 l2 : Registry) (j : Nat) :
    Registry.get (l1 ++ l2) j =
      match Registry.get l1 j with
      | some t => some t
      | none => Registry.get l2 j := by
  induction l1 with
  | nil => rw [List.nil_append, Registry.get_nil]
  | cons p rest ih =>
    rw [List.cons_append, Registry.get_cons, Registry.get_cons]
    by_cases h : p.1 == j
    · rw [if_pos h, if_pos h]
    · rw [if_neg h, if_neg h, ih]

theorem Registry.get_rangeMap (f : Nat → Task) :
    ∀ (N j : Nat),
      Registry.get ((List.range N).map fun i => (i, f i)) j
        = if j < N then some (f j) else none
  | 0, j => by
      rw [List.range_zero, List.map_nil, Registry.get_nil, if_neg (by omega)]
  | N + 1, j => by
      rw [List.range_succ, List.map_append, Registry.get_append,
        Registry.get_rangeMap f N j]
      rcases Nat.lt_trichotomy j N with h | h | h
      · rw [if_pos h, if_pos (Nat.lt_succ_of_lt h)]
      · subst h
        rw [if_neg (by omega), if_pos (by omega)]
        simp only [List.map_cons, List.map_nil, Registry.get_cons]
        rw [if_pos (by simp)]
      · rw [if_neg (by omega), if_neg (by omega)]
        simp only [List.map_cons, List.map_nil, Registry.get_cons]
        rw [if_neg (by simp; omega), Registry.get_nil]

theorem keys_rangeMap (f : Nat → Task) (N : Nat) :
    (((List.range N).map fun i => (i, f i)).map Prod.fst) = List.range N := by
  rw [List.map_map]
  have hcomp : (Prod.fst ∘ fun i => (i, f i)) = id := rfl
  rw [hcomp, List.map_id]

theorem Registry.get_modify_self (reg : Registry) (id : Nat) (f : Task → Task) :
    Registry.get (Registry.modify reg id f) id = (Registry.get reg id).map f := by
  induction reg with
  | nil => rfl
  | cons p rest ih =>
    rw [Registry.modify_cons]
    by_cases h : p.1 == id
    · rw [if_pos h, Registry.get_cons, Registry.get_cons, if_pos h]
      rw [if_pos h]
      rfl
    · rw [if_neg h, Registry.get_cons, Registry.get_cons, if_neg h, if_neg h, ih]

theorem Registry.get_modify_ne (reg : Registry) (id j : Nat) (f : Task → Task)
    (hne : j ≠ id) :
    Registry.get (Registry.modify reg id f) j = Registry.get reg j := by
  induction reg with
  | nil => rfl
  | cons p rest ih =>
    rw [Registry.modify_cons]
    by_cases h : p.1 == id
    · have hpj : (p.1 == j) = false := by
        simp at h ⊢
        omega
      rw [if_pos h, Registry.get_cons, Registry.get_cons]
      simp only [hpj]
      rw [if_neg (by simp), if_neg (by simp), ih]
    · rw [if_neg h, Registry.get_cons, Registry.get_cons]
      by_cases hpj : p.1 == j
      · rw [if_pos hpj, if_pos hpj]
      · rw [if_neg hpj, if_neg hpj, ih]

theorem Registry.modify_keys (reg : Registry) (id : Nat) (f : Task → Task) :
    (Registry.modify reg id f).map Prod.fst = reg.map Prod.fst := by
  induction reg with
  | nil => rfl
  | cons p rest ih =>
    rw [Registry.modify_cons, List.map_cons, List.map_cons, ih]
    by_cases h : p.1 == id
    · rw [if_pos h]
    · rw [if_neg h]

theorem Registry.get_isSome_iff (reg : Registry) (id : Nat) :
    (Registry.get reg id).isSome = true ↔ id ∈ reg.map Prod.fst := by
  induction reg with
  | nil => simp [Registry.get_nil]
  | cons p rest ih =>
    rw [Registry.get_cons, List.map_cons]
    by_cases h : p.1 == id
    · have heq : p.1 = id := by simpa using h
      simp [if_pos h, heq]
    · have hne : p.1 ≠ id := by simpa using h
      rw [if_neg h]
      simp only [List.mem_cons, ih]
      constructor
      · intro hm
        exact Or.inr hm
      · intro hm
        rcases hm with hm | hm
        · exact absurd hm.symm hne
        · exact hm

/-! ### Worker and channel-merge lemmas -/

theorem workerRun_taskId (i : Nat) (sr : SpawnResult) :
    ∀ e, e ∈ (workerRun i sr).1 → TaskEvent.taskId e = i := by
  intro e he
  cases sr with
  | failed => simp [workerRun] at he
  | ok p =>
    cases hr : p.stdoutRead with
    | none =>
      simp [workerRun, hr] at he
      rcases he with rfl | ⟨l, _, rfl⟩ <;> rfl
    | some content =>
      cases hw : p.wait with
      | failed =>
        simp [workerRun, hr, hw] at he
        rcases he with rfl | ⟨l, _, rfl⟩ | rfl <;> rfl
      | ok es =>
        simp [workerRun, hr, hw] at he
        rcases he with rfl | ⟨l, _, rfl⟩ | rfl | rfl <;> rfl

theorem workerQueues_getD (N : Nat) (beh : Nat → SpawnResult) (j : Nat) :
    (workerQueues N beh).getD j []
      = if j < N then (workerRun j (beh j)).1 else [] := by
  unfold workerQueues
  exact getD_map_range [] (fun i => (workerRun i (beh i)).1) N j

theorem workerQueues_pure (N : Nat) (beh : Nat → SpawnResult) :
    ∀ j e, e ∈ (workerQueues N beh).getD j [] → TaskEvent.taskId e = j ∧ j < N := by
  intro j e he
  rw [workerQueues_getD] at he
  by_cases h : j < N
  · rw [if_pos h] at he
    exact ⟨workerRun_taskId j (beh j) e he, h⟩
  · rw [if_neg h] at he
    simp at he

theorem mplexStep_eq {α : Type} (qs : List (List α)) (out : List α) (i : Nat) :
    mplexStep (qs, out) i
      = match qs.getD i [] with
        | [] => (qs, out)
        | e :: rest => (qs.set i rest, out ++ [e]) := rfl

theorem mplex_foldl_filter (t : Nat) :
    ∀ (σ : List Nat) (qs : List (List TaskEvent)) (out : List TaskEvent),
      (∀ j e, e ∈ qs.getD j [] → TaskEvent.taskId e = j) →
      filterId t ((σ.foldl mplexStep (qs, out)).2)
          ++ ((σ.foldl mplexStep (qs, out)).1.getD t [])
        = filterId t out ++ qs.getD t []
  | [], qs, out, _ => rfl
  | i :: σ, qs, out, hpure => by
      cases hq : qs.getD i [] with
      | nil =>
        have hstep : mplexStep (qs, out) i = (qs, out) := by
          rw [mplexStep_eq, hq]
        rw [List.foldl_cons, hstep]
        exact mplex_foldl_filter t σ qs out hpure
      | cons e rest =>
        have hlt : i < qs.length := lt_length_of_getD_cons hq
        have hstep : mplexStep (qs, out) i = (qs.set i rest, out ++ [e]) := by
          rw [mplexStep_eq, hq]
        rw [List.foldl_cons, hstep]
        have hpure2 : ∀ j x, x ∈ (qs.set i rest).getD j [] → TaskEvent.taskId x = j := by
          intro j x hx
          by_cases hji : j = i
          · subst hji
            rw [getD_set_self qs j rest [] hlt] at hx
            exact hpure j x (by rw [hq]; exact List.mem_cons_of_mem e hx)
          · rw [getD_set_ne qs i j rest [] fun hh => hji hh.symm] at hx
            exact hpure j x hx
        rw [mplex_foldl_filter t σ (qs.set i rest) (out ++ [e]) hpure2]
        have hid : TaskEvent.taskId e = i :=
          hpure i e (by rw [hq]; exact List.mem_cons_self e rest)
        by_cases hti : t = i
        · subst hti
          rw [getD_set_self qs t rest [] hlt, hq]
          have hfil : filterId t (out ++ [e]) = filterId t out ++ [e] := by
            unfold filterId
            rw [List.filter_append]
            simp [hid]
          rw [hfil, List.append_assoc]
          rfl
        · rw [getD_set_ne qs i t rest [] fun hh => hti hh.symm]
          have hfil : filterId t (out ++ [e]) = filterId t out := by
            unfold filterId
            rw [List.filter_append]
            have : (TaskEvent.taskId e == t) = false := by
              simp [hid]
              omega
            simp [this]
          rw [hfil]

theorem mplex_filter_drained (t : Nat) (σ : List Nat) (qs : List (List TaskEvent))
    (hpure : ∀ j e, e ∈ qs.getD j [] → TaskEvent.taskId e = j)
    (hdrain : (σ.foldl mplexStep (qs, [])).1.getD t [] = []) :
    filterId t (mplex qs σ) = qs.getD t [] := by
  have h := mplex_foldl_filter t σ qs [] hpure
  rw [hdrain, List.append_nil] at h
  exact h

theorem mplex_foldl_mem (P : TaskEvent → Prop) :
    ∀ (σ : List Nat) (qs : List (List TaskEvent)) (out : List TaskEvent),
      (∀ j e, e ∈ qs.getD j [] → P e) → (∀ e, e ∈ out → P e) →
      ∀ e, e ∈ (σ.foldl mplexStep (qs, out)).2 → P e
  | [], _, _, _, hout, e, he => hout e he
  | i :: σ, qs, out, hqs, hout, e, he => by
      cases hq : qs.getD i [] with
      | nil =>
        have hstep : mplexStep (qs, out) i = (qs, out) := by
          rw [mplexStep_eq, hq]
        rw [List.foldl_cons, hstep] at he
        exact mplex_foldl_mem P σ qs out hqs hout e he
      | cons x rest =>
        have hlt : i < qs.length := lt_length_of_getD_cons hq
        have hstep : mplexStep (qs, out) i = (qs.set i rest, out ++ [x]) := by
          rw [mplexStep_eq, hq]
        rw [List.foldl_cons, hstep] at he
        have hqs2 : ∀ j y, y ∈ (qs.set i rest).getD j [] → P y := by
          intro j y hy
          by_cases hji : j = i
          · subst hji
            rw [getD_set_self qs j rest [] hlt] at hy
            exact hqs j y (by rw [hq]; exact List.mem_cons_of_mem x hy)
          · rw [getD_set_ne qs i j rest [] fun hh => hji hh.symm] at hy
            exact hqs j y hy
        have hout2 : ∀ y, y ∈ out ++ [x] → P y := by
          intro y hy
          rcases List.mem_append.mp hy with hy | hy
          · exact hout y hy
          · rw [List.mem_singleton.mp hy]
            exact hqs i x (by rw [hq]; exact List.mem_cons_self x rest)
        exact mplex_foldl_mem P σ (qs.set i rest) (out ++ [x]) hqs2 hout2 e he

theorem mplex_mem (P : TaskEvent → Prop) (σ : List Nat) (qs : List (List TaskEvent))
    (hqs : ∀ j e, e ∈ qs.getD j [] → P e) :
    ∀ e, e ∈ mplex qs σ → P e :=
  mplex_foldl_mem P σ qs [] hqs (by intro e he; simp at he)

/-! ### Reporter lemmas -/

theorem handleEvent_keys (cap : Nat) (st : HandlerState) (ev : TaskEvent)
    (st2 : HandlerState) (h : handleEvent cap st ev = some st2) :
    st2.tasks.map Prod.fst = st.tasks.map Prod.fst := by
  cases ev with
  | Update id status =>
    cases hg : Registry.get st.tasks id with
    | none => simp [handleEvent, hg] at h
    | some t =>
      simp only [handleEvent, hg] at h
      injection h with h
      rw [← h]
      exact Registry.modify_keys st.tasks id fun t => { t with status := status }
  | Stderr id line =>
    cases hg : Registry.get st.tasks id with
    | none => simp [handleEvent, hg] at h
    | some t =>
      simp only [handleEvent, hg] at h
      injection h with h
      rw [← h]
      exact Registry.modify_keys st.tasks id fun t => { t with stderr := pushLine cap t.stderr line }
  | Stdout id content =>
    cases hg : Registry.get st.tasks id with
    | none => simp [handleEvent, hg] at h
    | some t =>
      simp only [handleEvent, hg] at h
      injection h with h
      rw [← h]
      exact Registry.modify_keys st.tasks id fun t => { t with stdout := content }

theorem handleEvent_isSome (cap : Nat) (st : HandlerState) (ev : TaskEvent)
    (h : TaskEvent.taskId ev ∈ st.tasks.map Prod.fst) :
    (handleEvent cap st ev).isSome = true := by
  have hg : (Registry.get st.tasks (TaskEvent.taskId ev)).isSome = true :=
    (Registry.get_isSome_iff st.tasks (TaskEvent.taskId ev)).mpr h
  cases ev with
  | Update id status =>
    cases hgg : Registry.get st.tasks id with
    | none => rw [TaskEvent.taskId, hgg] at hg; simp at hg
    | some t => simp [handleEvent, hgg]
  | Stderr id line =>
    cases hgg : Registry.get st.tasks id with
    | none => rw [TaskEvent.taskId, hgg] at hg; simp at hg
    | some t => simp [handleEvent, hgg]
  | Stdout id content =>
    cases hgg : Registry.get st.tasks id with
    | none => rw [TaskEvent.taskId, hgg] at hg; simp at hg
    | some t => simp [handleEvent, hgg]

theorem handleEvents_nil (cap : Nat) (st : HandlerState) :
    handleEvents cap st [] = some st := rfl

theorem handleEvents_cons (cap : Nat) (st : HandlerState) (ev : TaskEvent)
    (evs : List TaskEvent) :
    handleEvents cap st (ev :: evs)
      = match handleEvent cap st ev with
        | none => none
        | some st2 => handleEvents cap st2 evs := by
  cases h : handleEvent cap st ev with
  | none => simp [handleEvents, List.foldlM_cons, h]
  | some st2 => simp [handleEvents, List.foldlM_cons, h]

theorem handleEvents_keys (cap : Nat) :
    ∀ (evs : List TaskEvent) (st st2 : HandlerState),
      handleEvents cap st evs = some st2 →
      st2.tasks.map Prod.fst = st.tasks.map Prod.fst
  | [], st, st2, h => by
      rw [handleEvents_nil] at h
      injection h with h
      rw [h]
  | ev :: evs, st, st2, h => by
      rw [handleEvents_cons] at h
      cases hh : handleEvent cap st ev with
      | none => rw [hh] at h; exact Option.noConfusion h
      | some st1 =>
        rw [hh] at h
        exact (handleEvents_keys cap evs st1 st2 h).trans
          (handleEvent_keys cap st ev st1 hh)

theorem handleEvents_total (cap : Nat) :
    ∀ (evs : List TaskEvent) (st : HandlerState),
      (∀ e, e ∈ evs → TaskEvent.taskId e ∈ st.tasks.map Prod.fst) →
      ∃ st2, handleEvents cap st evs = some st2 ∧
        st2.tasks.map Prod.fst = st.tasks.map Prod.fst
  | [], st, _ => ⟨st, rfl, rfl⟩
  | ev :: evs, st, hids => by
      have h1 : (handleEvent cap st ev).isSome = true :=
        handleEvent_isSome cap st ev (hids ev (List.mem_cons_self ev evs))
      cases hh : handleEvent cap st ev with
      | none => rw [hh] at h1; simp at h1
      | some st1 =>
        have hkeys : st1.tasks.map Prod.fst = st.tasks.map Prod.fst :=
          handleEvent_keys cap st ev st1 hh
        have hids2 : ∀ e, e ∈ evs → TaskEvent.taskId e ∈ st1.tasks.map Prod.fst := by
          intro e he
          rw [hkeys]
          exact hids e (List.mem_cons_of_mem ev he)
        rcases handleEvents_total cap evs st1 hids2 with ⟨st2, hrun, hk2⟩
        exact ⟨st2, by rw [handleEvents_cons, hh]; exact hrun, hk2.trans hkeys⟩

/-! ### Stderr ring-buffer lemmas -/

theorem pushLine_length_le (cap : Nat) (buf : List String) (line : String)
    (h : buf.length ≤ cap) : (pushLine cap buf line).length ≤ cap := by
  rw [show pushLine cap buf line
      = if (buf ++ [line]).length > cap then (buf ++ [line]).tail else buf ++ [line]
    from rfl]
  split
  · rw [List.length_tail]
    simp only [List.length_append, List.length_singleton]
    omega
  · rename_i hle
    simp only [List.length_append, List.length_singleton] at hle ⊢
    omega

theorem pushLine_eq_drop (cap : Nat) (buf : List String) (line : String)
    (h : buf.length ≤ cap) :
    pushLine cap buf line = (buf ++ [line]).drop ((buf ++ [line]).length - cap) := by
  rw [show pushLine cap buf line
      = if (buf ++ [line]).length > cap then (buf ++ [line]).tail else buf ++ [line]
    from rfl]
  split
  · rename_i hgt
    simp only [List.length_append, List.length_singleton] at hgt ⊢
    have h1 : buf.length + 1 - cap = 1 := by omega
    rw [h1, List.drop_one]
  · rename_i hle
    simp only [List.length_append, List.length_singleton] at hle ⊢
    have h0 : buf.length + 1 - cap = 0 := by omega
    rw [h0, List.drop_zero]

theorem drop_sub_append (k : Nat) (xs ys : List String) :
    (xs.drop (xs.length - k) ++ ys).drop ((xs.drop (xs.length - k) ++ ys).length - k)
      = (xs ++ ys).drop ((xs ++ ys).length - k) := by
  rw [← List.drop_append_of_le_length (Nat.sub_le xs.length k)]
  rw [List.drop_drop]
  congr 1
  simp only [List.length_append, List.length_drop]
  omega

theorem foldl_pushLine (cap : Nat) :
    ∀ (lines buf : List String), buf.length ≤ cap →
      List.foldl (pushLine cap) buf lines
        = (buf ++ lines).drop ((buf ++ lines).length - cap)
  | [], buf, h => by
      rw [List.foldl_nil, List.append_nil, Nat.sub_eq_zero_of_le h, List.drop_zero]
  | l :: ls, buf, h => by
      rw [List.foldl_cons,
        foldl_pushLine cap ls (pushLine cap buf l) (pushLine_length_le cap buf l h),
        pushLine_eq_drop cap buf l h, drop_sub_append cap (buf ++ [l]) ls,
        List.append_assoc, List.singleton_append]

/-- Processing a sequence of `Stderr` events for task `t` leaves every other
field of the record of `t` alone and folds `pushLine` over the buffer. -/
theorem handleEvents_stderr (cap t : Nat) :
    ∀ (lines : List String) (st : HandlerState) (task : Task),
      Registry.get st.tasks t = some task →
      ∃ st2, handleEvents cap st (lines.map fun l => TaskEvent.Stderr t l) = some st2 ∧
        Registry.get st2.tasks t
          = some { task with stderr := List.foldl (pushLine cap) task.stderr lines }
  | [], st, task, hget => ⟨st, rfl, by rw [List.foldl_nil]; rw [hget]⟩
  | l :: ls, st, task, hget => by
      have hstep : handleEvent cap st (TaskEvent.Stderr t l)
          = some { st with tasks := Registry.modify st.tasks t fun tk =>
                     { tk with stderr := pushLine cap tk.stderr l } } := by
        simp only [handleEvent, hget]
      have hget2 : Registry.get
          (Registry.modify st.tasks t fun tk =>
            { tk with stderr := pushLine cap tk.stderr l }) t
          = some { task with stderr := pushLine cap task.stderr l } := by
        rw [Registry.get_modify_self, hget]
        rfl
      rcases handleEvents_stderr cap t ls
          { st with tasks := Registry.modify st.tasks t fun tk =>
              { tk with stderr := pushLine cap tk.stderr l } }
          { task with stderr := pushLine cap task.stderr l } hget2 with ⟨st2, hrun, hg2⟩
      refine ⟨st2, ?_, ?_⟩
      · rw [List.map_cons, handleEvents_cons, hstep]
        exact hrun
      · rw [hg2, List.foldl_cons]

/-! ### Run-model lemmas -/

theorem runModel_snd (m : Multiplexer) (winner : RaceWinner) (reg : Registry) :
    (Multiplexer.runModel m winner reg).2 = Except.ok () := rfl

theorem runModel_fst_signal (m : Multiplexer) (reg : Registry) :
    (Multiplexer.runModel m RaceWinner.signal reg).1 = none := rfl

theorem beq_signal_eq_false {winner : RaceWinner} (hw : winner ≠ RaceWinner.signal) :
    (winner == RaceWinner.signal) = false := by
  cases winner
  · exact absurd rfl hw
  · rfl
  · rfl

theorem runModel_fst_of_normal (m : Multiplexer) (winner : RaceWinner) (reg : Registry)
    (hw : winner ≠ RaceWinner.signal) (hs : m.stdout.isSome = true) :
    (Multiplexer.runModel m winner reg).1 = some (assembleResult reg) := by
  show (if !(winner == RaceWinner.signal) && m.stdout.isSome
      then some (assembleResult reg) else none) = some (assembleResult reg)
  rw [beq_signal_eq_false hw, hs]
  rfl

theorem runModel_fst_all_or_nothing (m : Multiplexer) (winner : RaceWinner)
    (reg : Registry) (out : List (Nat × String))
    (h : (Multiplexer.runModel m winner reg).1 = some out) :
    out = assembleResult reg := by
  have h2 : (if !(winner == RaceWinner.signal) && m.stdout.isSome
      then some (assembleResult reg) else none) = some out := h
  split at h2
  · injection h2 with h2
    rw [h2]
  · exact Option.noConfusion h2

theorem workerRun_ok_events (i : Nat) (p : SpawnedProc) (content : String)
    (es : ExitStatus) (hr : p.stdoutRead = some content)
    (hwait : p.wait = WaitResult.ok es) :
    (workerRun i (SpawnResult.ok p)).1
      = TaskEvent.Update i TaskStatus.Running
          :: ((p.stderrLines.map fun l => TaskEvent.Stderr i l)
            ++ [TaskEvent.Stdout i content,
                TaskEvent.Update i (TaskStatus.Completed (classifyExit es))]) := by
  simp [workerRun, hr, hwait]

theorem resolveCommands_eq :
    ∀ (files : List Config) (inline : List String),
      resolveCommands inline files = inline ++ (files.map Config.commands).flatten
  | [], inline => by
      rw [show resolveCommands inline [] = inline from rfl,
        List.map_nil, List.flatten_nil, List.append_nil]
  | f :: fs, inline => by
      rw [show resolveCommands inline (f :: fs)
          = resolveCommands (inline ++ f.commands) fs from rfl,
        resolveCommands_eq fs (inline ++ f.commands),
        List.map_cons, List.flatten_cons, List.append_assoc]

/-! ### Claims -/

/-- C4: for every task, the terminal status is `Success` iff the spawned
process exits with code exactly 0; a non-zero exit code `c` is classified
`Completed(Failed(Some(c)))`, and a signal-terminated process (no exit code)
is classified `Completed(Failed(None))`. -/
theorem c4_exit_classification (es : ExitStatus) :
    (classifyExit es = TaskStatusCompleted.Success ↔ es = some 0) ∧
    (∀ c : Int, c ≠ 0 → es = some c →
      classifyExit es = TaskStatusCompleted.Failed (some c)) ∧
    (es = none → classifyExit es = TaskStatusCompleted.Failed none) := by
  refine ⟨?_, ?_, ?_⟩
  · by_cases h0 : es = some 0
    · subst h0
      simp [classifyExit, ExitStatus.success]
    · unfold classifyExit ExitStatus.success
      rw [if_neg (by simp [h0])]
      simp [h0]
  · intro c hc hes
    subst hes
    unfold classifyExit ExitStatus.success
    rw [if_neg (by simp [hc])]
  · intro h
    subst h
    rfl

/-- Witness for C4 at concrete exit statuses 7, 0 and signal-termination. -/
theorem c4_exit_classification_witness :
    classifyExit (some 7) = TaskStatusCompleted.Failed (some 7) ∧
    classifyExit (some 0) = TaskStatusCompleted.Success ∧
    classifyExit none = TaskStatusCompleted.Failed none :=
  ⟨(c4_exit_classification (some 7)).2.1 7 (by decide) rfl,
   (c4_exit_classification (some 0)).1.mpr rfl,
   (c4_exit_classification none).2.2 rfl⟩

/-- C5: after the reporter processes any sequence of `Stderr` events for a
task (starting from its initial empty buffer), `recent_stderr` holds exactly
the last `min(cap, n)` lines in original order: it equals
`lines.drop (lines.length - cap)` (the last `cap` lines when more than `cap`
were written), its length is `min cap n`, and it never exceeds `cap`. -/
theorem c5_stderr_tail (cap t : Nat) (st : HandlerState) (task : Task)
    (lines : List String) (hget : Registry.get st.tasks t = some task)
    (h0 : task.stderr = []) :
    ∃ st2, handleEvents cap st (lines.map fun l => TaskEvent.Stderr t l) = some st2 ∧
      (Registry.get st2.tasks t).map Task.stderr
        = some (lines.drop (lines.length - cap)) ∧
      (lines.drop (lines.length - cap)).length = min cap lines.length ∧
      (lines.drop (lines.length - cap)).length ≤ cap := by
  rcases handleEvents_stderr cap t lines st task hget with ⟨st2, hrun, hg⟩
  refine ⟨st2, hrun, ?_, ?_, ?_⟩
  · rw [hg,
      show Option.map Task.stderr
          (some { task with stderr := List.foldl (pushLine cap) task.stderr lines })
        = some (List.foldl (pushLine cap) task.stderr lines) from rfl,
      h0, foldl_pushLine cap lines [] (by simp), List.nil_append]
  · rw [List.length_drop]
    omega
  · rw [List.length_drop]
    omega

/-- Witness for C5: capacity 2, three lines; the buffer ends as the last two
lines in order. -/
theorem c5_stderr_tail_witness :
    ∃ st2, handleEvents 2
        { remaining := 1,
          tasks := [(0, { command := "c", status := TaskStatus.Pending,
                          stderr := [], stdout := "" })] }
        (["l1", "l2", "l3"].map fun l => TaskEvent.Stderr 0 l) = some st2 ∧
      (Registry.get st2.tasks 0).map Task.stderr
        = some (["l1", "l2", "l3"].drop (["l1", "l2", "l3"].length - 2)) ∧
      (["l1", "l2", "l3"].drop (["l1", "l2", "l3"].length - 2)).length
        = min 2 ["l1", "l2", "l3"].length ∧
      (["l1", "l2", "l3"].drop (["l1", "l2", "l3"].length - 2)).length ≤ 2 :=
  c5_stderr_tail 2 0
    { remaining := 1,
      tasks := [(0, { command := "c", status := TaskStatus.Pending,
                      stderr := [], stdout := "" })] }
    { command := "c", status := TaskStatus.Pending, stderr := [], stdout := "" }
    ["l1", "l2", "l3"] rfl rfl

/-- C6: the resolved command list is the inline commands followed by the
file-sourced commands in file order, and the registry built from it assigns
ids forming the dense range `[0, N)` (no gaps, no duplicates), id `j`
holding the `j`-th command. -/
theorem c6_dense_ids (inline : List String) (files : List Config)
    (program : List String) (stderrCap : Nat) (fmt : Option StdoutFormat) :
    resolveCommands inline files = inline ++ (files.map Config.commands).flatten ∧
    (Multiplexer.new program stderrCap fmt (resolveCommands inline files)).tasks.map Prod.fst
      = List.range (resolveCommands inline files).length ∧
    ((Multiplexer.new program stderrCap fmt (resolveCommands inline files)).tasks.map Prod.fst).Nodup ∧
    ∀ j, j < (resolveCommands inline files).length →
      (Registry.get (Multiplexer.new program stderrCap fmt (resolveCommands inline files)).tasks j).map Task.command
        = some ((resolveCommands inline files).getD j "") := by
  have hkeys : (Multiplexer.new program stderrCap fmt (resolveCommands inline files)).tasks.map Prod.fst
      = List.range (resolveCommands inline files).length :=
    keys_rangeMap _ (resolveCommands inline files).length
  refine ⟨resolveCommands_eq files inline, hkeys, ?_, ?_⟩
  · rw [hkeys]
    exact List.nodup_range _
  · intro j hj
    have hget := Registry.get_rangeMap
      (fun i => { command := (resolveCommands inline files).getD i "",
                  status := TaskStatus.Pending, stderr := [], stdout := "" })
      (resolveCommands inline files).length j
    rw [show Registry.get
        (Multiplexer.new program stderrCap fmt (resolveCommands inline files)).tasks j
      = Registry.get ((List.range (resolveCommands inline files).length).map
          fun i => (i, { command := (resolveCommands inline files).getD i "",
                         status := TaskStatus.Pending, stderr := [], stdout := "" })) j
      from rfl, hget, if_pos hj]
    rfl

/-- Witness for C6: one inline command and one file command; id 1 holds the
file-sourced command. -/
theorem c6_dense_ids_witness :
    (Registry.get (Multiplexer.new ["/bin/sh", "-c"] 3 none
        (resolveCommands ["echo a"] [{ commands := ["echo b"] }])).tasks 1).map Task.command
      = some ((resolveCommands ["echo a"] [{ commands := ["echo b"] }]).getD 1 "") :=
  (c6_dense_ids ["echo a"] [{ commands := ["echo b"] }] ["/bin/sh", "-c"] 3 none).2.2.2
    1 (by decide)

/-- C9: a run that completes normally (the signal arm does not win the race)
makes the overall process exit with code 0, regardless of task outcomes:
a task exiting with code 7 is recorded as `Failed(Some(7))`, and the run
still returns `Ok(())`. -/
theorem c9_overall_exit_zero (m : Multiplexer) (reg : Registry) (winner : RaceWinner)
    (h : winner ≠ RaceWinner.signal) :
    mainExitCode (Multiplexer.runModel m winner reg).2 = 0 ∧
    classifyExit (some 7) = TaskStatusCompleted.Failed (some 7) := by
  constructor
  · rfl
  · rfl

/-- Witness for C9 at a concrete multiplexer and the commands-drained winner. -/
theorem c9_overall_exit_zero_witness :
    mainExitCode (Multiplexer.runModel (Multiplexer.new ["/bin/sh", "-c"] 3 none ["exit 7"])
        RaceWinner.commands []).2 = 0 ∧
    classifyExit (some 7) = TaskStatusCompleted.Failed (some 7) :=
  c9_overall_exit_zero (Multiplexer.new ["/bin/sh", "-c"] 3 none ["exit 7"]) []
    RaceWinner.commands (by decide)

/-- C2 counterexample: a task whose spawn fails produces no events at all —
in particular the terminal `Update(Completed(Failed(None)))` required by the
claim is never emitted (the worker hits `spawn().unwrap()` and panics before
sending anything). -/
theorem c2_counterexample :
    (workerRun 0 SpawnResult.failed).1 = [] ∧
    TaskEvent.Update 0 (TaskStatus.Completed (TaskStatusCompleted.Failed none))
      ∉ (workerRun 0 SpawnResult.failed).1 := by
  refine ⟨rfl, ?_⟩
  intro h
  simp [workerRun] at h

/-- C2 (amended): a spawn failure panics the worker before any event is sent,
so the task is never classified `Failed(None)` and no terminal `Update` is
emitted (likewise a wait failure panics after the `Stdout` event, with no
terminal `Update`); the panic is confined to the `JoinSet` task of that worker, so
the run as a whole is still not aborted and `run()` still returns `Ok(())`. -/
theorem c2_amended_spawn_panic (i : Nat) (m : Multiplexer) (reg : Registry)
    (winner : RaceWinner) (p : SpawnedProc) (content : String)
    (hwf : p.wait = WaitResult.failed) (hr : p.stdoutRead = some content)
    (hwin : winner ≠ RaceWinner.signal) :
    workerRun i SpawnResult.failed = ([], true) ∧
    (workerRun i (SpawnResult.ok p)).2 = true ∧
    (∀ st, TaskEvent.Update i (TaskStatus.Completed st) ∉ (workerRun i (SpawnResult.ok p)).1) ∧
    (Multiplexer.runModel m winner reg).2 = Except.ok () := by
  refine ⟨rfl, ?_, ?_, rfl⟩
  · simp [workerRun, hr, hwf]
  · intro st h
    simp [workerRun, hr, hwf] at h

/-- Witness for the amended C2 at a concrete wait-failing process and the
commands-drained winner. -/
theorem c2_amended_spawn_panic_witness :
    workerRun 0 SpawnResult.failed = ([], true) ∧
    (workerRun 0 (SpawnResult.ok ⟨[], some "", WaitResult.failed⟩)).2 = true ∧
    (∀ st, TaskEvent.Update 0 (TaskStatus.Completed st)
      ∉ (workerRun 0 (SpawnResult.ok ⟨[], some "", WaitResult.failed⟩)).1) ∧
    (Multiplexer.runModel (Multiplexer.new ["/bin/sh", "-c"] 3 none ["true"])
        RaceWinner.commands []).2 = Except.ok () :=
  c2_amended_spawn_panic 0 (Multiplexer.new ["/bin/sh", "-c"] 3 none ["true"]) []
    RaceWinner.commands ⟨[], some "", WaitResult.failed⟩ "" rfl rfl (by decide)

/-- C3 counterexample: at a concrete run ended by the interrupt signal, the
call produces no `Result` but returns `Ok(())` — not an interruption error as
the claim states. -/
theorem c3_counterexample :
    Multiplexer.runModel (Multiplexer.new ["/bin/sh", "-c"] 3 (some StdoutFormat.Json) ["echo hi"])
        RaceWinner.signal
        (Multiplexer.new ["/bin/sh", "-c"] 3 (some StdoutFormat.Json) ["echo hi"]).tasks
      = (none, Except.ok ()) := rfl

/-- C3 (amended): when the interrupt signal wins the cancellation race, no
`Result` is produced (serialized output is all-or-nothing: whenever some
output is produced it is the full assembled `Result`), but the call returns
`Ok(())` rather than an interruption error. -/
theorem c3_amended_abort_behavior (m : Multiplexer) (reg : Registry)
    (winner : RaceWinner) (out : List (Nat × String)) :
    (Multiplexer.runModel m RaceWinner.signal reg).1 = none ∧
    (Multiplexer.runModel m RaceWinner.signal reg).2 = Except.ok () ∧
    (∀ msg, (Multiplexer.runModel m RaceWinner.signal reg).2 ≠ Except.error msg) ∧
    ((Multiplexer.runModel m winner reg).1 = some out → out = assembleResult reg) := by
  refine ⟨rfl, rfl, ?_, ?_⟩
  · intro msg h
    rw [runModel_snd m RaceWinner.signal reg] at h
    exact Except.noConfusion h
  · exact runModel_fst_all_or_nothing m winner reg out

/-- Witness for the amended C3 at a concrete interrupted run. -/
theorem c3_amended_abort_behavior_witness :
    (Multiplexer.runModel (Multiplexer.new ["/bin/sh", "-c"] 3 (some StdoutFormat.Json) ["echo hi"])
        RaceWinner.signal
        (Multiplexer.new ["/bin/sh", "-c"] 3 (some StdoutFormat.Json) ["echo hi"]).tasks).1 = none ∧
    (Multiplexer.runModel (Multiplexer.new ["/bin/sh", "-c"] 3 (some StdoutFormat.Json) ["echo hi"])
        RaceWinner.signal
        (Multiplexer.new ["/bin/sh", "-c"] 3 (some StdoutFormat.Json) ["echo hi"]).tasks).2
      ≠ Except.error "interrupted" ∧
    assembleResult (Multiplexer.new ["/bin/sh", "-c"] 3 (some StdoutFormat.Json) ["echo hi"]).tasks
      = assembleResult (Multiplexer.new ["/bin/sh", "-c"] 3 (some StdoutFormat.Json) ["echo hi"]).tasks :=
  ⟨(c3_amended_abort_behavior (Multiplexer.new ["/bin/sh", "-c"] 3 (some StdoutFormat.Json) ["echo hi"])
      (Multiplexer.new ["/bin/sh", "-c"] 3 (some StdoutFormat.Json) ["echo hi"]).tasks
      RaceWinner.commands []).1,
   (c3_amended_abort_behavior (Multiplexer.new ["/bin/sh", "-c"] 3 (some StdoutFormat.Json) ["echo hi"])
      (Multiplexer.new ["/bin/sh", "-c"] 3 (some StdoutFormat.Json) ["echo hi"]).tasks
      RaceWinner.commands []).2.2.1 "interrupted",
   (c3_amended_abort_behavior (Multiplexer.new ["/bin/sh", "-c"] 3 (some StdoutFormat.Json) ["echo hi"])
      (Multiplexer.new ["/bin/sh", "-c"] 3 (some StdoutFormat.Json) ["echo hi"]).tasks
      RaceWinner.commands
      (assembleResult (Multiplexer.new ["/bin/sh", "-c"] 3 (some StdoutFormat.Json) ["echo hi"]).tasks)).2.2.2
     (runModel_fst_of_normal _ _ _ (by decide) rfl)⟩

/-- C7: on a non-aborted run with a result format requested, the produced
`Result` has exactly one entry per task id in `[0, N)` (keys are the dense
range), and each entry holds the `stdout` field of that task exactly as last
written by the reporter. -/
theorem c7_result_assembly (program cmds : List String) (stderrCap : Nat)
    (winner : RaceWinner) (evs : List TaskEvent) (st2 : HandlerState)
    (hw : winner ≠ RaceWinner.signal)
    (h : handleEvents stderrCap
        { remaining := cmds.length,
          tasks := (Multiplexer.new program stderrCap (some StdoutFormat.Json) cmds).tasks }
        evs = some st2) :
    (Multiplexer.runModel (Multiplexer.new program stderrCap (some StdoutFormat.Json) cmds)
        winner st2.tasks).1
      = some (st2.tasks.map fun p => (p.1, p.2.stdout)) ∧
    (st2.tasks.map fun p => (p.1, p.2.stdout)).map Prod.fst = List.range cmds.length ∧
    (st2.tasks.map fun p => (p.1, p.2.stdout)).length = cmds.length := by
  have hkeys : st2.tasks.map Prod.fst = List.range cmds.length := by
    rw [handleEvents_keys stderrCap evs _ st2 h]
    exact keys_rangeMap _ cmds.length
  refine ⟨?_, ?_, ?_⟩
  · exact runModel_fst_of_normal _ winner st2.tasks hw rfl
  · rw [List.map_map,
      show (Prod.fst ∘ fun p : Nat × Task => (p.1, p.2.stdout)) = Prod.fst from rfl,
      hkeys]
  · rw [List.length_map,
      show st2.tasks.length = (st2.tasks.map Prod.fst).length from
        (List.length_map st2.tasks Prod.fst).symm,
      hkeys, List.length_range]

/-- Witness for C7: the empty event sequence on a one-task run. -/
theorem c7_result_assembly_witness :
    (Multiplexer.runModel (Multiplexer.new ["/bin/sh", "-c"] 3 (some StdoutFormat.Json) ["echo hi"])
        RaceWinner.commands
        (HandlerState.mk 1
          (Multiplexer.new ["/bin/sh", "-c"] 3 (some StdoutFormat.Json) ["echo hi"]).tasks).tasks).1
      = some ((HandlerState.mk 1
          (Multiplexer.new ["/bin/sh", "-c"] 3 (some StdoutFormat.Json) ["echo hi"]).tasks).tasks.map
          fun p => (p.1, p.2.stdout)) ∧
    ((HandlerState.mk 1
        (Multiplexer.new ["/bin/sh", "-c"] 3 (some StdoutFormat.Json) ["echo hi"]).tasks).tasks.map
        fun p => (p.1, p.2.stdout)).map Prod.fst = List.range ["echo hi"].length ∧
    ((HandlerState.mk 1
        (Multiplexer.new ["/bin/sh", "-c"] 3 (some StdoutFormat.Json) ["echo hi"]).tasks).tasks.map
        fun p => (p.1, p.2.stdout)).length = ["echo hi"].length :=
  c7_result_assembly ["/bin/sh", "-c"] ["echo hi"] 3 RaceWinner.commands []
    (HandlerState.mk 1
      (Multiplexer.new ["/bin/sh", "-c"] 3 (some StdoutFormat.Json) ["echo hi"]).tasks)
    (by decide) rfl

/-- C8: a task whose child spawns, whose stdout read succeeds and whose wait
succeeds emits exactly: one `Update(Running)`, then one `Stderr` per stderr
line in order, then exactly one `Stdout` with the full captured output, then
the terminal `Update(Completed(..))`; and this per-task order is preserved in
the stream seen by the single consumer: under any schedule that delivers all
of the events of that task, the consumed stream restricted to that task is exactly
this sequence. -/
theorem c8_event_order (N t : Nat) (beh : Nat → SpawnResult) (σ : List Nat)
    (p : SpawnedProc) (content : String) (es : ExitStatus)
    (hb : beh t = SpawnResult.ok p) (hr : p.stdoutRead = some content)
    (hwait : p.wait = WaitResult.ok es) (ht : t < N)
    (hdrain : (σ.foldl mplexStep (workerQueues N beh, [])).1.getD t [] = []) :
    filterId t (mplex (workerQueues N beh) σ)
      = TaskEvent.Update t TaskStatus.Running
          :: ((p.stderrLines.map fun l => TaskEvent.Stderr t l)
            ++ [TaskEvent.Stdout t content,
                TaskEvent.Update t (TaskStatus.Completed (classifyExit es))]) := by
  rw [mplex_filter_drained t σ (workerQueues N beh)
      (fun j e he => (workerQueues_pure N beh j e he).1) hdrain,
    workerQueues_getD, if_pos ht, hb,
    workerRun_ok_events t p content es hr hwait]

/-- Witness for C8: one task with one stderr line, drained by a concrete
schedule. -/
theorem c8_event_order_witness :
    filterId 0 (mplex (workerQueues 1 fun _ =>
        SpawnResult.ok { stderrLines := ["oops"], stdoutRead := some "out",
                         wait := WaitResult.ok (some 0) }) [0, 0, 0, 0])
      = TaskEvent.Update 0 TaskStatus.Running
          :: ((["oops"].map fun l => TaskEvent.Stderr 0 l)
            ++ [TaskEvent.Stdout 0 "out",
                TaskEvent.Update 0 (TaskStatus.Completed (classifyExit (some 0)))]) :=
  c8_event_order 1 0
    (fun _ => SpawnResult.ok { stderrLines := ["oops"], stdoutRead := some "out",
                               wait := WaitResult.ok (some 0) })
    [0, 0, 0, 0]
    { stderrLines := ["oops"], stdoutRead := some "out", wait := WaitResult.ok (some 0) }
    "out" (some 0) rfl rfl rfl (by decide) rfl

/-- C10: every event any worker emits carries a task id that is a key of the
registry (worker `i` only ever tags events with id `i`, and workers exist
exactly for the registry keys `0..N`), so the `get(&id).unwrap()`
lookup succeeds on every consumed event and processing the whole stream never
panics. -/
theorem c10_registry_lookup_total (program cmds : List String) (stderrCap : Nat)
    (fmt : Option StdoutFormat) (beh : Nat → SpawnResult) (σ : List Nat) :
    (∀ e, e ∈ mplex (workerQueues cmds.length beh) σ →
        TaskEvent.taskId e ∈ (Multiplexer.new program stderrCap fmt cmds).tasks.map Prod.fst) ∧
    ∃ st2, handleEvents stderrCap
        { remaining := cmds.length,
          tasks := (Multiplexer.new program stderrCap fmt cmds).tasks }
        (mplex (workerQueues cmds.length beh) σ) = some st2 := by
  have hmem : ∀ e, e ∈ mplex (workerQueues cmds.length beh) σ →
      TaskEvent.taskId e < cmds.length := by
    refine mplex_mem (fun e => TaskEvent.taskId e < cmds.length) σ _ ?_
    intro j e he
    rcases workerQueues_pure cmds.length beh j e he with ⟨hid, hj⟩
    rw [hid]
    exact hj
  have hk : (Multiplexer.new program stderrCap fmt cmds).tasks.map Prod.fst
      = List.range cmds.length := keys_rangeMap _ cmds.length
  have hin : ∀ e, e ∈ mplex (workerQueues cmds.length beh) σ →
      TaskEvent.taskId e ∈ (Multiplexer.new program stderrCap fmt cmds).tasks.map Prod.fst := by
    intro e he
    rw [hk, List.mem_range]
    exact hmem e he
  refine ⟨hin, ?_⟩
  rcases handleEvents_total stderrCap (mplex (workerQueues cmds.length beh) σ)
      { remaining := cmds.length,
        tasks := (Multiplexer.new program stderrCap fmt cmds).tasks }
      (fun e he => hin e he) with ⟨st2, hrun, _⟩
  exact ⟨st2, hrun⟩

/-- Witness for C10: a one-task run with a concrete schedule. -/
theorem c10_registry_lookup_total_witness :
    ∃ st2, handleEvents 3
        { remaining := ["echo hi"].length,
          tasks := (Multiplexer.new ["/bin/sh", "-c"] 3 none ["echo hi"]).tasks }
        (mplex (workerQueues ["echo hi"].length fun _ =>
          SpawnResult.ok { stderrLines := [], stdoutRead := some "hi",
                           wait := WaitResult.ok (some 0) }) [0, 0, 0]) = some st2 :=
  (c10_registry_lookup_total ["/bin/sh", "-c"] ["echo hi"] 3 none
    (fun _ => SpawnResult.ok { stderrLines := [], stdoutRead := some "hi",
                               wait := WaitResult.ok (some 0) }) [0, 0, 0]).2

/-- C1: the parallelism cap is not enforced by the code. The parsed
`parallelism` argument never reaches the engine (`Multiplexer::new` has no
such parameter, so the built multiplexer is identical for every parallelism
value), and a concrete 2-task run reaches an instant at which both tasks hold
`Running` simultaneously — violating the claim for the cap P = 1 < N = 2. -/
theorem c1_parallelism_not_enforced :
    ((handleEvents 3
        { remaining := 2,
          tasks := (Multiplexer.new ["/bin/sh", "-c"] 3 none ["sleep 1", "sleep 1"]).tasks }
        (mplex (workerQueues 2 fun _ =>
          SpawnResult.ok { stderrLines := [], stdoutRead := some "",
                           wait := WaitResult.ok (some 0) }) [0, 1])).map
      fun st => countRunning st.tasks) = some 2 ∧
    ∀ (args : MultiplexArgs) (q : Option Nat),
      runMultiplexSetup { args with parallelism := q } = runMultiplexSetup args := by
  constructor
  · rfl
  · intro args q
    rfl

end Bobr
